import Mathlib

/-!
# Verification of the fraud-detection worker

A shallow embedding of `Microservices/FraudDetectionService/main.py`:
the message-processing `callback`, the channel accessor `get_channel`,
the connection retry loop `get_rabbitmq_connection`, and the timestamp
formatting.  Side effects (Redis reads/writes, metric increments, queue
declarations, publishes, ack/nack) are recorded as an explicit trace of
`Effect` events in program order; the Redis store is threaded through as
an explicit key-value state.  Failures of the broker environment
(connection loss, declaration errors, publish errors) are supplied as
parameters so that every control path of the source is representable.
-/

namespace FraudDetection

/-- A Python value as it can appear in the parsed JSON message fields
(`amount`, `isDelayed`).  Only the shapes the claims need are carried:
numbers (modelled as rationals), strings, booleans and `None`. -/
inductive PyVal where
  | num (q : ℚ)
  | str (s : String)
  | bool (b : Bool)
  | none_
deriving DecidableEq

/-- The comparison `amount > 1000` from line 137 of the source.  In Python
this succeeds on numbers (and on `bool`, which is an `int` subclass whose
values 0 and 1 are never `> 1000`) and raises `TypeError` on strings and
`None`. -/
def pyGt1000 : PyVal → Except Unit Bool
  | .num q => .ok (decide (q > 1000))
  | .bool _ => .ok false
  | .str _ => .error ()
  | .none_ => .error ()

/-- Python truthiness, used by `if is_delayed:` on the value of
`message.get("isDelayed", False)`. -/
def pyTruthy : PyVal → Bool
  | .num q => decide (q ≠ 0)
  | .str s => decide (s ≠ "")
  | .bool b => b
  | .none_ => false

/-- `status = "declined" if is_fraud else "approved"` (line 138). -/
def statusOf (isF : Bool) : String :=
  if isF then "declined" else "approved"

/-- The inbound delivery as seen by `callback`.  `valid = false` models a
body that `json.loads` rejects; a missing field models the `KeyError`
raised by `message["transferId"]` / `message["amount"]`; `isDelayed`
is optional because the source reads it with `message.get`. -/
structure InMsg where
  valid : Bool
  transferId : Option String
  amount : Option PyVal
  isDelayed : Option PyVal
deriving DecidableEq

/-- `message.get("isDelayed", False)` followed by the truthiness test. -/
def isDelayedOf (msg : InMsg) : Bool :=
  match msg.isDelayed with
  | none => false
  | some v => pyTruthy v

/-- The broken-down UTC time returned by `time.gmtime()`. -/
structure StructTime where
  tm_year : ℕ
  tm_mon : ℕ
  tm_mday : ℕ
  tm_hour : ℕ
  tm_min : ℕ
  tm_sec : ℕ
deriving DecidableEq

/-- Zero-pad the decimal representation of `n` to `width` characters. -/
def fmtNat (width n : ℕ) : String :=
  String.mk (List.replicate (width - (toString n).length) '0') ++ toString n

/-- Core of `time.strftime`: expand the directives of the C `strftime` that
the source's format string uses.  `%f` is a `datetime`-only directive; the
C `strftime` (glibc) has no such conversion and copies the two characters
through verbatim, and a `struct_time` carries no sub-second field, so no
directive expansion could produce microseconds here. -/
def strftimeGo (t : StructTime) : List Char → List Char
  | [] => []
  | '%' :: c :: rest =>
      (match c with
       | 'Y' => fmtNat 4 t.tm_year
       | 'm' => fmtNat 2 t.tm_mon
       | 'd' => fmtNat 2 t.tm_mday
       | 'H' => fmtNat 2 t.tm_hour
       | 'M' => fmtNat 2 t.tm_min
       | 'S' => fmtNat 2 t.tm_sec
       | other => String.mk ['%', other]).toList ++ strftimeGo t rest
  | c :: rest => c :: strftimeGo t rest

/-- `time.strftime(fmt, t)`. -/
def time_strftime (fmt : String) (t : StructTime) : String :=
  String.mk (strftimeGo t fmt.toList)

/-- The format string of line 144. -/
def tsFormat : String := "%Y-%m-%dT%H:%M:%S.%fZ"

/-- A published message body.  All three outbound shapes share the verdict
fields; `event_type` is `none` for the `FraudResult` shape and tagged for
the `FraudEvents` / `FraudCheckResults` shapes. -/
structure Payload where
  event_type : Option String
  transferId : String
  isFraud : Bool
  status : String
  amount : PyVal
  timestamp : String
deriving DecidableEq

/-- The `FraudEvents` shape (lines 176-183). -/
def evPayload (p : Payload) : Payload :=
  ⟨some "FraudCheckCompleted", p.transferId, p.isFraud, p.status, p.amount, p.timestamp⟩

/-- The `FraudCheckResults` shape (lines 223-230). -/
def dlPayload (p : Payload) : Payload :=
  ⟨some "DelayedFraudCheckCompleted", p.transferId, p.isFraud, p.status, p.amount, p.timestamp⟩

/-- A value stored in Redis by the service. -/
inductive StoreVal where
  | processed
  | txn (transferId : String) (amount : PyVal) (timestamp : ℚ)
        (isFraud : Option Bool) (status : Option String)
  | result (p : Payload)
deriving DecidableEq

/-- One observable side effect of the service, in program order. -/
inductive Effect where
  | redisGet (key : String)
  | redisSetex (key : String) (ttl : ℕ) (v : StoreVal)
  | counterInc (name : String)
  | connectOk
  | connectFailed
  | declareOk (queue : String)
  | publishAttempt (queue : String) (p : Payload) (ok : Bool)
  | ack
  | nack
deriving DecidableEq

/-- The Redis store: keys to values.  TTLs are recorded on the write
effects; a key within its TTL is simply present. -/
abbrev RState := String → Option StoreVal

/-- `redis_client.setex` as a state update. -/
def rset (s : RState) (k : String) (v : StoreVal) : RState :=
  fun q => if q = k then some v else s q

/-- Key `fraud:transfer:{transfer_id}` (dedup marker, line 118/126). -/
def dedupKey (tid : String) : String := "fraud:transfer:" ++ tid

/-- Key `fraud:transaction:{transfer_id}` (audit record, line 134/150). -/
def txnKey (tid : String) : String := "fraud:transaction:" ++ tid

/-- Key `fraud:result:{transfer_id}` (result cache, line 153). -/
def resultKey (tid : String) : String := "fraud:result:" ++ tid

/-- Behaviour of one `get_channel()` call, as determined by the broker
environment: whether the cached connection is absent/closed, whether the
reconnect (`get_rabbitmq_connection`) raises after exhausting its retries,
and which of the three initial `queue_declare` calls (if any) raises
first. -/
structure GCBehavior where
  needsConnect : Bool
  connectFails : Bool
  declFail : Option (Fin 3)
deriving DecidableEq

/-- The three output queues, in the order `get_channel` declares them
(lines 85-91). -/
def outQueues : List String := ["FraudResult", "FraudEvents", "FraudCheckResults"]

/-- `get_channel()` (lines 74-104): when the cached connection is missing
or closed it reconnects and declares the three output queues durable; if
one declaration raises, the channel is closed and recreated — the
remaining declarations are NOT retried — and the (fresh, declaration-free)
channel is still returned.  The returned `Bool` is whether the call
returns a channel rather than propagating a connection error. -/
def get_channel (b : GCBehavior) : List Effect × Bool :=
  if b.needsConnect then
    if b.connectFails then ([.connectFailed], false)
    else
      match b.declFail with
      | none => (.connectOk :: outQueues.map .declareOk, true)
      | some i => (.connectOk :: (outQueues.take i.val).map .declareOk, true)
  else ([], true)

/-- The broker/metric environment of one `callback` run: the behaviour of
each `get_channel` call site (0 = line 164, 1 = line 193, 2 = line 234 or
256), whether each in-block `queue_declare` raises (0 = line 197, 1 =
line 238, 2 = line 260), whether each `basic_publish` raises (0 =
FraudEvents line 173, 1 = FraudResult line 211, 2 = FraudCheckResults
line 243, 3 = FraudResult line 274), the value of `time.time()` and of
`time.gmtime()`. -/
structure Env where
  gc : ℕ → GCBehavior
  blockDeclFail : ℕ → Bool
  pubFail : ℕ → Bool
  epochNow : ℚ
  now : StructTime

/-- One publish block of the shape used for `FraudResult` (lines 191-219)
and `FraudCheckResults` (lines 232-251): re-acquire the channel (a raise
here is caught by the block's `except`), best-effort declare of the target
queue (its own `try`, failure ignored), then the publish attempt (failure
caught by the block's `except`). -/
def resultBlock (g : List Effect × Bool) (declFailed : Bool) (q : String)
    (p : Payload) (pubOk : Bool) : List Effect :=
  if g.2 then
    g.1 ++ (if declFailed then [] else [.declareOk q]) ++ [.publishAttempt q p pubOk]
  else g.1

/-- The publish-and-acknowledge phase of `callback` (lines 163-286):
`channel = get_channel()` (NOT inside any `try`: a raise here escapes to
the outer handler), the `FraudEvents` publish in its own `try`, the
unconditional `FraudResult` block, then either the `FraudCheckResults`
block (`is_delayed`) or a second, duplicated `FraudResult` block, and
finally `basic_ack`. -/
def publishPhase (env : Env) (p : Payload) (isD : Bool) : List Effect :=
  let g0 := get_channel (env.gc 0)
  if g0.2 then
    g0.1
    ++ [.publishAttempt "FraudEvents" (evPayload p) (!env.pubFail 0)]
    ++ resultBlock (get_channel (env.gc 1)) (env.blockDeclFail 0) "FraudResult" p (!env.pubFail 1)
    ++ (if isD then
          resultBlock (get_channel (env.gc 2)) (env.blockDeclFail 1) "FraudCheckResults"
            (dlPayload p) (!env.pubFail 2)
        else
          resultBlock (get_channel (env.gc 2)) (env.blockDeclFail 2) "FraudResult"
            p (!env.pubFail 3))
    ++ [.ack]
  else g0.1 ++ [.counterInc "processing_errors", .nack]

/-- The message handler `callback` (lines 106-292).  Returns the final
Redis state and the trace of effects.  Any exception escaping the body
reaches the outer handler: `processing_errors.inc()` then
`basic_nack(requeue=False)`. -/
def callback (msg : InMsg) (env : Env) (s : RState) : RState × List Effect :=
  match msg.valid, msg.transferId, msg.amount with
  | false, _, _ => (s, [.counterInc "processing_errors", .nack])
  | true, none, _ => (s, [.counterInc "processing_errors", .nack])
  | true, some _, none => (s, [.counterInc "processing_errors", .nack])
  | true, some tid, some amount =>
    if (s (dedupKey tid)).isSome then
      (s, [.redisGet (dedupKey tid), .counterInc "duplicate_messages",
           .counterInc "duplicate_fraud_checks", .ack])
    else
      let txn1 : StoreVal := .txn tid amount env.epochNow none none
      match pyGt1000 amount with
      | .error _ =>
        (rset (rset s (dedupKey tid) .processed) (txnKey tid) txn1,
         [.redisGet (dedupKey tid),
          .redisSetex (dedupKey tid) 604800 .processed,
          .redisSetex (txnKey tid) 604800 txn1,
          .counterInc "processing_errors", .nack])
      | .ok isF =>
        let st := statusOf isF
        let ts := time_strftime tsFormat env.now
        let p : Payload := ⟨none, tid, isF, st, amount, ts⟩
        let txn2 : StoreVal := .txn tid amount env.epochNow (some isF) (some st)
        (rset (rset (rset (rset s (dedupKey tid) .processed) (txnKey tid) txn1)
           (txnKey tid) txn2) (resultKey tid) (.result p),
         [.redisGet (dedupKey tid),
          .redisSetex (dedupKey tid) 604800 .processed,
          .redisSetex (txnKey tid) 604800 txn1,
          .redisSetex (txnKey tid) 604800 txn2,
          .redisSetex (resultKey tid) 3600 (.result p),
          .counterInc "messages_processed"]
         ++ (if isF then [.counterInc "fraud_detections"] else [])
         ++ publishPhase env p (isDelayedOf msg))

/-- Outcome of `get_rabbitmq_connection` (lines 42-68): a connection, a
re-raise of the last failure after the retry budget is exhausted, or the
implicit `return None` when the `while` guard fails on entry (only
possible with `max_retries = 0`). -/
inductive ConnOutcome where
  | connected
  | raised (e : String)
  | fellThrough
deriving DecidableEq

/-- The `while retry_count < max_retries` loop of `get_rabbitmq_connection`,
with `fuel = max_retries - retry_count` and `k` the 0-based attempt index.
`attempt k = none` means attempt `k` connects; `some e` means it raises
`e`.  On a failure that does not exhaust the budget the loop sleeps
`min(delay + jitter, max_delay)` (recorded in the returned list) and
doubles the delay, capping it at `max_delay`. -/
def connectLoopAux (attempt : ℕ → Option String) (jitter : ℕ → ℚ) (md : ℚ) :
    ℕ → ℕ → ℚ → List ℚ × ConnOutcome
  | 0, _, _ => ([], .fellThrough)
  | fuel + 1, k, d =>
    match attempt k with
    | none => ([], .connected)
    | some e =>
      if fuel = 0 then ([], .raised e)
      else
        let next := connectLoopAux attempt jitter md fuel (k + 1) (min (d * 2) md)
        (min (d + jitter k) md :: next.1, next.2)

/-- `get_rabbitmq_connection(max_retries, initial_delay, max_delay)`:
run the retry loop from attempt 0 with the initial delay.  The source's
defaults are `max_retries = 30`, `initial_delay = 1`, `max_delay = 30`. -/
def get_rabbitmq_connection (attempt : ℕ → Option String) (jitter : ℕ → ℚ)
    (max_retries : ℕ) (initial_delay max_delay : ℚ) : List ℚ × ConnOutcome :=
  connectLoopAux attempt jitter max_delay max_retries 0 initial_delay

/-- The base delay before the `i`-th sleep: `initial_delay`, then doubled
and capped at `max_delay` after every failed attempt. -/
def delaySeq (md d : ℚ) : ℕ → ℚ
  | 0 => d
  | n + 1 => min (delaySeq md d n * 2) md

/-- The ISO-8601 shape the specification claims for timestamps:
`YYYY-MM-DDTHH:MM:SS.ffffffZ`, matched character-class by character. -/
def matchesPattern : List Char → List Char → Bool
  | [], [] => true
  | 'd' :: ps, c :: cs => c.isDigit && matchesPattern ps cs
  | p :: ps, c :: cs => (p == c) && matchesPattern ps cs
  | _, _ => false

/-- Decides whether `s` has the claimed timestamp shape
`YYYY-MM-DDTHH:MM:SS.ffffffZ` (26 digit/letter positions plus a literal
`Z`), stated from the specification's words for comparison with what the
code produces. -/
def isIsoMicroZ (s : String) : Bool :=
  matchesPattern "dddd-dd-ddTdd:dd:dd.ddddddZ".toList s.toList

/-- Trace query helpers. -/
def isPublishAttempt : Effect → Bool
  | .publishAttempt _ _ _ => true
  | _ => false

/-- The publish attempts of a trace, in order. -/
def publishAttempts (tr : List Effect) : List Effect :=
  tr.filter isPublishAttempt

/-- How many messages queue `q` actually received (attempts that did not
raise). -/
def deliveredTo (q : String) (tr : List Effect) : ℕ :=
  (tr.filter fun e =>
    match e with
    | .publishAttempt q2 _ ok => q2 == q && ok
    | _ => false).length

/-- Effects that touch the broker: connection acquisition, declarations
and publish attempts. -/
def isBrokerEffect : Effect → Bool
  | .connectOk => true
  | .connectFailed => true
  | .declareOk _ => true
  | .publishAttempt _ _ _ => true
  | _ => false

/-- Increments of the `messages_processed` / `fraud_detections` counters. -/
def isMpFd : Effect → Bool
  | .counterInc n => (n == "messages_processed") || (n == "fraud_detections")
  | _ => false

/-- What `get_channel` may emit. -/
def gcShape : Effect → Bool
  | .connectOk => true
  | .connectFailed => true
  | .declareOk q => outQueues.contains q
  | _ => false

/-- What `publishPhase` may emit: no store access, no counter other than
`processing_errors`, publishes only to the three output queues. -/
def ppShape : Effect → Bool
  | .redisGet _ => false
  | .redisSetex _ _ _ => false
  | .counterInc n => n == "processing_errors"
  | .publishAttempt q _ _ => outQueues.contains q
  | _ => true

/-- A `get_channel` behaviour for a healthy broker with a cached open
connection. -/
def gcConnected : GCBehavior := ⟨false, false, none⟩

/-- A `get_channel` behaviour that reconnects and declares all three
queues successfully. -/
def gcFresh : GCBehavior := ⟨true, false, none⟩

/-- A fixed broken-down time for concrete evaluations:
2026-01-02 03:04:05 UTC. -/
def t0 : StructTime := ⟨2026, 1, 2, 3, 4, 5⟩

/-- A healthy environment: the first `get_channel` connects and declares
everything, later calls reuse the open connection, nothing fails. -/
def envOK : Env :=
  ⟨fun n => if n = 0 then gcFresh else gcConnected, fun _ => false, fun _ => false, 0, t0⟩

/-- An environment with a healthy channel in which every `basic_publish`
raises. -/
def envAllPubFail : Env :=
  ⟨fun n => if n = 0 then gcFresh else gcConnected, fun _ => false, fun _ => true, 0, t0⟩

/-- An environment where every channel acquisition needs a connection and
every reconnection attempt exhausts its retries. -/
def envConnDown : Env :=
  ⟨fun _ => ⟨true, true, none⟩, fun _ => false, fun _ => false, 0, t0⟩

/-- The empty Redis store. -/
def emptyStore : RState := fun _ => none

/-- A well-formed immediate (non-delayed) check request. -/
def msgImm : InMsg := ⟨true, some "t1", some (.num 500), some (.bool false)⟩

/-- A well-formed delayed check request. -/
def msgDel : InMsg := ⟨true, some "t2", some (.num 500), some (.bool true)⟩

/-- A request whose `amount` is a non-numeric string. -/
def msgBadAmt : InMsg := ⟨true, some "t3", some (.str "abc"), none⟩

/-- A delivery whose body `json.loads` rejects. -/
def msgNoJson : InMsg := ⟨false, none, none, none⟩

/-- C4: the fraud decision is the pure threshold rule: `isFraud` is exactly
`amount > 1000`, status is `"declined"` iff fraudulent and `"approved"`
otherwise, with the boundary `amount = 1000` approved and `amount =
1000.01` declined, and exactly one of the two statuses produced. -/
theorem C4_decision_rule : ∀ a : ℚ,
    pyGt1000 (.num a) = .ok (decide (a > 1000)) ∧
    statusOf (decide (a > 1000)) = (if a > 1000 then "declined" else "approved") ∧
    (statusOf (decide (a > 1000)) = "approved" ↔ ¬a > 1000) ∧
    (statusOf (decide (a > 1000)) = "declined" ↔ a > 1000) ∧
    pyGt1000 (.num 1000) = .ok false ∧
    pyGt1000 (.num (100001 / 100)) = .ok true ∧
    statusOf false = "approved" ∧ statusOf true = "declined" := by
  intro a
  refine ⟨rfl, ?_, ?_, ?_, by norm_num [pyGt1000], by norm_num [pyGt1000], rfl, rfl⟩ <;>
    by_cases h : a > 1000 <;> simp [statusOf, h]

/-- C2 evaluation at the failing input: with a healthy broker, a
non-delayed message results in ONE copy on `FraudEvents` but TWO copies on
`FraudResult` (the unconditional block at lines 190-219 and the duplicated
`else` block at lines 252-282 both fire), while a delayed message results
in exactly one copy on each of the three queues, the `FraudCheckResults`
copy carrying `event_type = "DelayedFraudCheckCompleted"`. -/
theorem C2_fanout_eval :
    deliveredTo "FraudEvents" (callback msgImm envOK emptyStore).2 = 1 ∧
    deliveredTo "FraudResult" (callback msgImm envOK emptyStore).2 = 2 ∧
    deliveredTo "FraudCheckResults" (callback msgImm envOK emptyStore).2 = 0 ∧
    deliveredTo "FraudEvents" (callback msgDel envOK emptyStore).2 = 1 ∧
    deliveredTo "FraudResult" (callback msgDel envOK emptyStore).2 = 1 ∧
    deliveredTo "FraudCheckResults" (callback msgDel envOK emptyStore).2 = 1 ∧
    ((callback msgDel envOK emptyStore).2.all fun e =>
      match e with
      | .publishAttempt q p _ => (!(q == "FraudCheckResults")) ||
                                 (p.event_type == some "DelayedFraudCheckCompleted")
      | _ => true) = true := by
  decide

/-- C9 evaluation: at gmtime 2026-01-02 03:04:05 the code's
`time.strftime("%Y-%m-%dT%H:%M:%S.%fZ", time.gmtime())` yields the string
`2026-01-02T03:04:05.%fZ` — `%f` is not a `time.strftime` directive and
`struct_time` has no sub-second field, so the published timestamp carries
a literal `%f`, not six microsecond digits; it does not match the claimed
`YYYY-MM-DDTHH:MM:SS.ffffffZ` shape (which a genuine
microsecond-precision string does match), and every publish of a
processed message carries exactly this malformed timestamp. -/
theorem C9_timestamp_eval :
    time_strftime tsFormat t0 = "2026-01-02T03:04:05.%fZ" ∧
    isIsoMicroZ "2026-01-02T03:04:05.%fZ" = false ∧
    isIsoMicroZ "2026-01-02T03:04:05.123456Z" = true ∧
    ((callback msgImm envOK emptyStore).2.all fun e =>
      match e with
      | .publishAttempt _ p _ => p.timestamp == "2026-01-02T03:04:05.%fZ"
      | _ => true) = true ∧
    deliveredTo "FraudResult" (callback msgImm envOK emptyStore).2 ≠ 0 := by
  refine ⟨by decide, by decide, by decide, by decide, by decide⟩

/-- C5 counterexample: the message `{"transferId": "t3", "amount": "abc"}`
has a non-numeric amount, yet its processing writes both the dedup marker
and the audit record to the store (the `TypeError` is only raised at
`amount > 1000`, after the two `setex` calls), contradicting the claim
that such a message causes no store writes.  The full trace shows the
rejection path: the two writes, then `processing_errors` and a
no-requeue nack, with no publishes. -/
theorem C5_counterexample :
    (Effect.redisSetex (dedupKey "t3") 604800 .processed)
      ∈ (callback msgBadAmt envOK emptyStore).2 ∧
    (Effect.redisSetex (txnKey "t3") 604800 (.txn "t3" (.str "abc") 0 none none))
      ∈ (callback msgBadAmt envOK emptyStore).2 ∧
    (callback msgBadAmt envOK emptyStore).2 =
      [.redisGet (dedupKey "t3"),
       .redisSetex (dedupKey "t3") 604800 .processed,
       .redisSetex (txnKey "t3") 604800 (.txn "t3" (.str "abc") 0 none none),
       .counterInc "processing_errors", .nack] := by
  refine ⟨by decide, by decide, by decide⟩

/-! ## Helper lemmas: store keys and lookups -/

/-- Two keys built by appending the same id to prefixes of different
lengths are different. -/
lemma append_ne_of_len {a b : String} (c : String) (h : a.length ≠ b.length) :
    a ++ c ≠ b ++ c := by
  intro he
  have := congrArg String.length he
  simp [String.length_append] at this
  exact h this

lemma txnKey_ne_dedupKey (tid : String) : txnKey tid ≠ dedupKey tid := by
  exact append_ne_of_len tid (by decide)

lemma resultKey_ne_dedupKey (tid : String) : resultKey tid ≠ dedupKey tid := by
  exact append_ne_of_len tid (by decide)

lemma resultKey_ne_txnKey (tid : String) : resultKey tid ≠ txnKey tid := by
  exact append_ne_of_len tid (by decide)

lemma rset_same (s : RState) (k : String) (v : StoreVal) : rset s k v k = some v := by
  simp [rset]

lemma rset_other (s : RState) {k q : String} (v : StoreVal) (h : q ≠ k) :
    rset s k v q = s q := by
  simp [rset, h]

/-! ## Helper lemmas: trace positions -/

/-- If no element of the prefix `P` satisfies `f` and some element of `P`
satisfies `g`, then any `f`-position of `P ++ Q` has a strictly earlier
`g`-position. -/
lemma exists_earlier {α : Type} (P Q : List α) (f g : α → Bool)
    (hP : ∀ e ∈ P, f e = false) (x : α) (hg : g x = true) (hx : x ∈ P) :
    ∀ (i : ℕ) (hi : i < (P ++ Q).length), f ((P ++ Q).get ⟨i, hi⟩) = true →
      ∃ (j : ℕ) (hj : j < (P ++ Q).length), j < i ∧ g ((P ++ Q).get ⟨j, hj⟩) = true := by
  intro i hi hf
  obtain ⟨j, hjP, hje⟩ := List.mem_iff_getElem.mp hx
  have hjlen : j < (P ++ Q).length := by
    simp only [List.length_append]
    omega
  have hPi : ¬ i < P.length := by
    intro hiP
    have hgete : (P ++ Q).get ⟨i, hi⟩ = P.get ⟨i, hiP⟩ := by
      rw [List.get_eq_getElem, List.get_eq_getElem, List.getElem_append_left]
    have hfp := hP _ (List.get_mem P i hiP)
    rw [hgete, hfp] at hf
    exact absurd hf (by simp)
  refine ⟨j, hjlen, by omega, ?_⟩
  have : (P ++ Q).get ⟨j, hjlen⟩ = P.get ⟨j, hjP⟩ := by
    rw [List.get_eq_getElem, List.get_eq_getElem, List.getElem_append_left]
  rw [this, List.get_eq_getElem, hje]
  exact hg

/-- If no element of `P` satisfies `f` and no element of `Q` satisfies `g`,
then in `P ++ Q` every `g`-position is strictly before every
`f`-position. -/
lemma index_split {α : Type} (P Q : List α) (f g : α → Bool)
    (hPf : ∀ e ∈ P, f e = false) (hQg : ∀ e ∈ Q, g e = false) :
    ∀ (i j : ℕ) (hi : i < (P ++ Q).length) (hj : j < (P ++ Q).length),
      f ((P ++ Q).get ⟨i, hi⟩) = true → g ((P ++ Q).get ⟨j, hj⟩) = true → j < i := by
  intro i j hi hj hf hg
  have hPi : ¬ i < P.length := by
    intro hiP
    have hgete : (P ++ Q).get ⟨i, hi⟩ = P.get ⟨i, hiP⟩ := by
      rw [List.get_eq_getElem, List.get_eq_getElem, List.getElem_append_left]
    have hfp := hPf _ (List.get_mem P i hiP)
    rw [hgete, hfp] at hf
    exact absurd hf (by simp)
  have hQj : j < P.length := by
    by_contra hjP
    push_neg at hjP
    have hmem : (P ++ Q).get ⟨j, hj⟩ ∈ Q := by
      rw [List.get_eq_getElem, List.getElem_append_right hjP]
      exact List.getElem_mem _
    have hfalse := hQg _ hmem
    rw [hfalse] at hg
    exact absurd hg (by simp)
  omega

/-- A trace with no publish attempts makes any statement about the
payload of a publish position vacuous. -/
lemma no_pub_at_index {l : List Effect} (h : ∀ e ∈ l, isPublishAttempt e = false) :
    ∀ (i : ℕ) (hi : i < l.length) (q : String) (p : Payload) (b : Bool),
      l.get ⟨i, hi⟩ = .publishAttempt q p b → False := by
  intro i hi q p b he
  have := h _ (List.get_mem l i hi)
  rw [he] at this
  simp [isPublishAttempt] at this

/-! ## Helper lemmas: what the publish phase can emit -/

lemma gc_shape (b : GCBehavior) : ∀ e ∈ (get_channel b).1, gcShape e = true := by
  obtain ⟨nc, cf, df⟩ := b
  intro e he
  cases nc <;> cases cf <;> rcases df with _ | i <;> try fin_cases i
  all_goals simp [get_channel, outQueues] at he
  all_goals first
    | (subst he; rfl)
    | (rcases he with rfl | rfl | rfl | rfl <;> rfl)

lemma gcShape_pp {e : Effect} (h : gcShape e = true) : ppShape e = true := by
  cases e <;> simp_all [gcShape, ppShape]

lemma resultBlock_mem (g : List Effect × Bool) (df : Bool) (q : String)
    (p : Payload) (pubOk : Bool) :
    ∀ e ∈ resultBlock g df q p pubOk,
      e ∈ g.1 ∨ e = .declareOk q ∨ e = .publishAttempt q p pubOk := by
  intro e he
  unfold resultBlock at he
  split at he
  · rcases List.mem_append.mp he with h | h
    · rcases List.mem_append.mp h with h | h
      · exact Or.inl h
      · split at h
        · cases h
        · simp only [List.mem_singleton] at h
          exact Or.inr (Or.inl h)
    · simp only [List.mem_singleton] at h
      exact Or.inr (Or.inr h)
  · exact Or.inl he

lemma resultBlock_pp (b : GCBehavior) (df : Bool) {q : String}
    (p : Payload) (pubOk : Bool) (hq : outQueues.contains q = true) :
    ∀ e ∈ resultBlock (get_channel b) df q p pubOk, ppShape e = true := by
  intro e he
  rcases resultBlock_mem _ _ _ _ _ e he with h | rfl | rfl
  · exact gcShape_pp (gc_shape b e h)
  · simpa [ppShape] using hq
  · simpa [ppShape] using hq

lemma publishPhase_shape (env : Env) (p : Payload) (isD : Bool) :
    ∀ e ∈ publishPhase env p isD, ppShape e = true := by
  intro e he
  simp only [publishPhase] at he
  split at he
  · rcases List.mem_append.mp he with h | h
    swap
    · simp only [List.mem_singleton] at h
      subst h; rfl
    rcases List.mem_append.mp h with h | h
    swap
    · split at h
      · exact resultBlock_pp _ _ _ _ (by decide) e h
      · exact resultBlock_pp _ _ _ _ (by decide) e h
    rcases List.mem_append.mp h with h | h
    swap
    · exact resultBlock_pp _ _ _ _ (by decide) e h
    rcases List.mem_append.mp h with h | h
    · exact gcShape_pp (gc_shape _ e h)
    · simp only [List.mem_singleton] at h
      subst h; rfl
  · rcases List.mem_append.mp he with h | h
    · exact gcShape_pp (gc_shape _ e h)
    · simp only [List.mem_cons, List.mem_singleton, List.not_mem_nil, or_false] at h
      rcases h with rfl | rfl <;> rfl

/-! ## The main (valid, non-duplicate) path of `callback`, factored -/

/-- The verdict payload built at lines 139-145 for amount value `v` with
decision `isF`. -/
def mainPayload (tid : String) (v : PyVal) (isF : Bool) (env : Env) : Payload :=
  ⟨none, tid, isF, statusOf isF, v, time_strftime tsFormat env.now⟩

/-- The effects of lines 117-158 on the valid non-duplicate path: dedup
read, marker write, the two audit writes, the result-cache write and the
counter increments — everything strictly before the publish phase. -/
def corePart (tid : String) (v : PyVal) (isF : Bool) (env : Env) : List Effect :=
  [.redisGet (dedupKey tid),
   .redisSetex (dedupKey tid) 604800 .processed,
   .redisSetex (txnKey tid) 604800 (.txn tid v env.epochNow none none),
   .redisSetex (txnKey tid) 604800 (.txn tid v env.epochNow (some isF) (some (statusOf isF))),
   .redisSetex (resultKey tid) 3600 (.result (mainPayload tid v isF env)),
   .counterInc "messages_processed"]
  ++ (if isF then [.counterInc "fraud_detections"] else [])

/-- The store state after the valid non-duplicate path. -/
def mainState (tid : String) (v : PyVal) (isF : Bool) (env : Env) (s0 : RState) : RState :=
  rset (rset (rset (rset s0 (dedupKey tid) .processed)
    (txnKey tid) (.txn tid v env.epochNow none none))
    (txnKey tid) (.txn tid v env.epochNow (some isF) (some (statusOf isF))))
    (resultKey tid) (.result (mainPayload tid v isF env))

lemma callback_main (tid : String) (v : PyVal) (isF : Bool) (mdel : Option PyVal)
    (env : Env) (s0 : RState) (h0 : s0 (dedupKey tid) = none)
    (hok : pyGt1000 v = .ok isF) :
    callback ⟨true, some tid, some v, mdel⟩ env s0 =
      (mainState tid v isF env s0,
       corePart tid v isF env
         ++ publishPhase env (mainPayload tid v isF env)
              (isDelayedOf ⟨true, some tid, some v, mdel⟩)) := by
  have h0b : (s0 (dedupKey tid)).isSome = false := by rw [h0]; rfl
  simp only [callback, h0b, hok, Bool.false_eq_true, if_false, mainState, corePart, mainPayload]

lemma callback_main_err (tid : String) (v : PyVal) (mdel : Option PyVal)
    (env : Env) (s0 : RState) (h0 : s0 (dedupKey tid) = none)
    (herr : pyGt1000 v = .error ()) :
    callback ⟨true, some tid, some v, mdel⟩ env s0 =
      (rset (rset s0 (dedupKey tid) .processed) (txnKey tid)
         (.txn tid v env.epochNow none none),
       [.redisGet (dedupKey tid),
        .redisSetex (dedupKey tid) 604800 .processed,
        .redisSetex (txnKey tid) 604800 (.txn tid v env.epochNow none none),
        .counterInc "processing_errors", .nack]) := by
  have h0b : (s0 (dedupKey tid)).isSome = false := by rw [h0]; rfl
  simp only [callback, h0b, herr, Bool.false_eq_true, if_false]

lemma callback_dup (tid : String) (mam : PyVal) (mdel : Option PyVal)
    (env : Env) (s : RState) (hdup : (s (dedupKey tid)).isSome = true) :
    callback ⟨true, some tid, some mam, mdel⟩ env s =
      (s, [.redisGet (dedupKey tid), .counterInc "duplicate_messages",
           .counterInc "duplicate_fraud_checks", .ack]) := by
  simp only [callback, hdup, if_true]

lemma corePart_no_broker (tid : String) (v : PyVal) (isF : Bool) (env : Env) :
    ∀ e ∈ corePart tid v isF env,
      isBrokerEffect e = false ∧ isPublishAttempt e = false ∧ e ≠ .ack ∧ e ≠ .nack := by
  intro e he
  unfold corePart at he
  rcases List.mem_append.mp he with h | h
  · simp only [List.mem_cons, List.not_mem_nil, or_false] at h
    rcases h with rfl | rfl | rfl | rfl | rfl | rfl
    all_goals exact ⟨rfl, rfl, by simp, by simp⟩
  · split at h
    · simp only [List.mem_singleton] at h
      subst h
      exact ⟨rfl, rfl, by simp, by simp⟩
    · cases h

lemma corePart_mp (tid : String) (v : PyVal) (isF : Bool) (env : Env) :
    Effect.counterInc "messages_processed" ∈ corePart tid v isF env := by
  unfold corePart
  simp

lemma corePart_fd (tid : String) (v : PyVal) (env : Env) :
    Effect.counterInc "fraud_detections" ∈ corePart tid v true env := by
  unfold corePart
  simp

lemma publishPhase_ok_eq (env : Env) (p : Payload) (isD : Bool)
    (hg0 : (get_channel (env.gc 0)).2 = true) :
    publishPhase env p isD =
      (get_channel (env.gc 0)).1
      ++ [.publishAttempt "FraudEvents" (evPayload p) (!env.pubFail 0)]
      ++ resultBlock (get_channel (env.gc 1)) (env.blockDeclFail 0) "FraudResult" p
           (!env.pubFail 1)
      ++ (if isD then
            resultBlock (get_channel (env.gc 2)) (env.blockDeclFail 1) "FraudCheckResults"
              (dlPayload p) (!env.pubFail 2)
          else
            resultBlock (get_channel (env.gc 2)) (env.blockDeclFail 2) "FraudResult" p
              (!env.pubFail 3))
      ++ [.ack] := by
  simp only [publishPhase, hg0, if_true]

lemma resultBlock_pub (g : List Effect × Bool) (df : Bool) (q : String)
    (p : Payload) (pubOk : Bool) (hg : g.2 = true) :
    Effect.publishAttempt q p pubOk ∈ resultBlock g df q p pubOk := by
  unfold resultBlock
  rw [hg]
  simp

lemma nack_not_gc (b : GCBehavior) : Effect.nack ∉ (get_channel b).1 := by
  intro h
  have := gc_shape b _ h
  simp [gcShape] at this

lemma nack_not_rb (b : GCBehavior) (df : Bool) (q : String) (p : Payload)
    (pubOk : Bool) :
    Effect.nack ∉ resultBlock (get_channel b) df q p pubOk := by
  intro h
  rcases resultBlock_mem _ _ _ _ _ _ h with h | h | h
  · exact nack_not_gc b h
  · cases h
  · cases h

/-- C6: on the valid non-duplicate path with the first channel acquisition
succeeding, whatever subset of the individual publishes fails (the
environment `env` fixes each publish's and each later channel
re-acquisition's outcome arbitrarily), the `FraudEvents` publish is
attempted, the `FraudResult` block still attempts its publish whenever its
own channel acquisition succeeds, the delayed block likewise, no nack is
ever issued, and the message is acknowledged — the trace ends with the
ack. -/
theorem C6_publish_isolation (tid : String) (a : ℚ) (mdel : Option PyVal)
    (env : Env) (s0 : RState) (h0 : s0 (dedupKey tid) = none)
    (hg0 : (get_channel (env.gc 0)).2 = true) :
    Effect.ack ∈ (callback ⟨true, some tid, some (.num a), mdel⟩ env s0).2 ∧
    Effect.nack ∉ (callback ⟨true, some tid, some (.num a), mdel⟩ env s0).2 ∧
    (∃ p b, Effect.publishAttempt "FraudEvents" p b
      ∈ (callback ⟨true, some tid, some (.num a), mdel⟩ env s0).2) ∧
    ((get_channel (env.gc 1)).2 = true →
      ∃ p b, Effect.publishAttempt "FraudResult" p b
        ∈ (callback ⟨true, some tid, some (.num a), mdel⟩ env s0).2) ∧
    (isDelayedOf ⟨true, some tid, some (.num a), mdel⟩ = true →
      (get_channel (env.gc 2)).2 = true →
      ∃ p b, Effect.publishAttempt "FraudCheckResults" p b
        ∈ (callback ⟨true, some tid, some (.num a), mdel⟩ env s0).2) ∧
    ((callback ⟨true, some tid, some (.num a), mdel⟩ env s0).2).getLast? =
      some .ack := by
  rw [callback_main tid (.num a) (decide (a > 1000)) mdel env s0 h0 rfl,
    publishPhase_ok_eq env _ _ hg0]
  refine ⟨?_, ?_, ?_, ?_, ?_, ?_⟩
  · simp [List.mem_append]
  · intro h
    rcases List.mem_append.mp h with h | h
    · exact (corePart_no_broker _ _ _ _ _ h).2.2.2 rfl
    rcases List.mem_append.mp h with h | h
    swap
    · simp only [List.mem_singleton] at h
      cases h
    rcases List.mem_append.mp h with h | h
    swap
    · split at h
      · exact nack_not_rb _ _ _ _ _ h
      · exact nack_not_rb _ _ _ _ _ h
    rcases List.mem_append.mp h with h | h
    swap
    · exact nack_not_rb _ _ _ _ _ h
    rcases List.mem_append.mp h with h | h
    · exact nack_not_gc _ h
    · simp only [List.mem_singleton] at h
      cases h
  · exact ⟨evPayload (mainPayload tid (.num a) (decide (a > 1000)) env), !env.pubFail 0,
      by simp [List.mem_append]⟩
  · intro hg1
    refine ⟨mainPayload tid (.num a) (decide (a > 1000)) env, !env.pubFail 1, ?_⟩
    have hm := resultBlock_pub (get_channel (env.gc 1)) (env.blockDeclFail 0)
      "FraudResult" (mainPayload tid (.num a) (decide (a > 1000)) env)
      (!env.pubFail 1) hg1
    simp only [List.mem_append]
    tauto
  · intro hd hg2
    refine ⟨dlPayload (mainPayload tid (.num a) (decide (a > 1000)) env),
      !env.pubFail 2, ?_⟩
    have hm := resultBlock_pub (get_channel (env.gc 2)) (env.blockDeclFail 1)
      "FraudCheckResults" (dlPayload (mainPayload tid (.num a) (decide (a > 1000)) env))
      (!env.pubFail 2) hg2
    rw [hd]
    simp only [if_true, List.mem_append]
    tauto
  · rw [← List.append_assoc]
    exact List.getLast?_concat _

/-- C6 witness: a concrete healthy-channel environment in which every
single publish raises; the message is still acknowledged and all three
attempts occur. -/
theorem C6_publish_isolation_witness :
    ((emptyStore (dedupKey "t9") = none ∧
      (get_channel (envAllPubFail.gc 0)).2 = true) ∧
     (Effect.ack ∈ (callback ⟨true, some "t9", some (.num 2000), some (.bool true)⟩
        envAllPubFail emptyStore).2 ∧
      Effect.nack ∉ (callback ⟨true, some "t9", some (.num 2000), some (.bool true)⟩
        envAllPubFail emptyStore).2 ∧
      (∃ p b, Effect.publishAttempt "FraudEvents" p b
        ∈ (callback ⟨true, some "t9", some (.num 2000), some (.bool true)⟩
            envAllPubFail emptyStore).2) ∧
      ((get_channel (envAllPubFail.gc 1)).2 = true →
        ∃ p b, Effect.publishAttempt "FraudResult" p b
          ∈ (callback ⟨true, some "t9", some (.num 2000), some (.bool true)⟩
              envAllPubFail emptyStore).2) ∧
      (isDelayedOf ⟨true, some "t9", some (.num 2000), some (.bool true)⟩ = true →
        (get_channel (envAllPubFail.gc 2)).2 = true →
        ∃ p b, Effect.publishAttempt "FraudCheckResults" p b
          ∈ (callback ⟨true, some "t9", some (.num 2000), some (.bool true)⟩
              envAllPubFail emptyStore).2) ∧
      ((callback ⟨true, some "t9", some (.num 2000), some (.bool true)⟩
          envAllPubFail emptyStore).2).getLast? = some .ack)) :=
  ⟨⟨rfl, by decide⟩,
   C6_publish_isolation "t9" 2000 (some (.bool true)) envAllPubFail emptyStore rfl
     (by decide)⟩

lemma ppShape_not_mpfd {e : Effect} (h : ppShape e = true) : isMpFd e = false := by
  cases e <;> first
    | rfl
    | (simp only [ppShape, beq_iff_eq] at h
       subst h
       rfl)

/-- C10: on the valid non-duplicate path, the `messages_processed` counter
(and `fraud_detections` when the verdict is fraudulent) is incremented
strictly before any broker effect — before any channel acquisition,
declaration or publish attempt — for an arbitrary environment, including
those where channel acquisition raises or every publish fails. -/
theorem C10_counters_before_broker (tid : String) (a : ℚ) (mdel : Option PyVal)
    (env : Env) (s0 : RState) (h0 : s0 (dedupKey tid) = none) :
    Effect.counterInc "messages_processed"
      ∈ (callback ⟨true, some tid, some (.num a), mdel⟩ env s0).2 ∧
    (decide (a > 1000) = true →
      Effect.counterInc "fraud_detections"
        ∈ (callback ⟨true, some tid, some (.num a), mdel⟩ env s0).2) ∧
    (∀ (i j : ℕ)
      (hi : i < ((callback ⟨true, some tid, some (.num a), mdel⟩ env s0).2).length)
      (hj : j < ((callback ⟨true, some tid, some (.num a), mdel⟩ env s0).2).length),
      isBrokerEffect (((callback ⟨true, some tid, some (.num a), mdel⟩ env s0).2).get
        ⟨i, hi⟩) = true →
      isMpFd (((callback ⟨true, some tid, some (.num a), mdel⟩ env s0).2).get
        ⟨j, hj⟩) = true →
      j < i) := by
  rw [callback_main tid (.num a) (decide (a > 1000)) mdel env s0 h0 rfl]
  refine ⟨List.mem_append_left _ (corePart_mp tid _ _ env), ?_, ?_⟩
  · intro hf
    rw [hf]
    exact List.mem_append_left _ (corePart_fd tid _ env)
  · exact index_split _ _ isBrokerEffect isMpFd
      (fun e he => (corePart_no_broker _ _ _ _ e he).1)
      (fun e he => ppShape_not_mpfd (publishPhase_shape _ _ _ e he))

/-- C10 witness: a fraudulent amount in an environment where the very
first channel acquisition raises (so the message ends in a nack): the
counters were nevertheless incremented, before the failed acquisition. -/
theorem C10_counters_before_broker_witness :
    (emptyStore (dedupKey "t7") = none) ∧
    (Effect.counterInc "messages_processed"
      ∈ (callback ⟨true, some "t7", some (.num 5000), none⟩ envConnDown emptyStore).2 ∧
    (decide ((5000 : ℚ) > 1000) = true →
      Effect.counterInc "fraud_detections"
        ∈ (callback ⟨true, some "t7", some (.num 5000), none⟩ envConnDown emptyStore).2) ∧
    (∀ (i j : ℕ)
      (hi : i < ((callback ⟨true, some "t7", some (.num 5000), none⟩ envConnDown emptyStore).2).length)
      (hj : j < ((callback ⟨true, some "t7", some (.num 5000), none⟩ envConnDown emptyStore).2).length),
      isBrokerEffect (((callback ⟨true, some "t7", some (.num 5000), none⟩ envConnDown emptyStore).2).get
        ⟨i, hi⟩) = true →
      isMpFd (((callback ⟨true, some "t7", some (.num 5000), none⟩ envConnDown emptyStore).2).get
        ⟨j, hj⟩) = true →
      j < i)) :=
  ⟨rfl, C10_counters_before_broker "t7" 5000 none envConnDown emptyStore rfl⟩

lemma marker_earlier (post : List Effect) (tid : String) :
    ∀ (i : ℕ)
      (hi : i < (Effect.redisGet (dedupKey tid) ::
        Effect.redisSetex (dedupKey tid) 604800 .processed :: post).length),
      (isPublishAttempt ((Effect.redisGet (dedupKey tid) ::
          Effect.redisSetex (dedupKey tid) 604800 .processed :: post).get ⟨i, hi⟩) = true ∨
        (Effect.redisGet (dedupKey tid) ::
          Effect.redisSetex (dedupKey tid) 604800 .processed :: post).get ⟨i, hi⟩ =
          .ack) →
      ∃ (j : ℕ) (hj : j < (Effect.redisGet (dedupKey tid) ::
          Effect.redisSetex (dedupKey tid) 604800 .processed :: post).length),
        j < i ∧
        (Effect.redisGet (dedupKey tid) ::
          Effect.redisSetex (dedupKey tid) 604800 .processed :: post).get ⟨j, hj⟩ =
          .redisSetex (dedupKey tid) 604800 .processed := by
  intro i hi hio
  have hfE : (fun e => isPublishAttempt e || (e == Effect.ack))
      ((Effect.redisGet (dedupKey tid) ::
        Effect.redisSetex (dedupKey tid) 604800 .processed :: post).get ⟨i, hi⟩) = true := by
    simp only [Bool.or_eq_true, beq_iff_eq]
    exact hio
  obtain ⟨j, hj, hlt, hgj⟩ := exists_earlier
    [Effect.redisGet (dedupKey tid), Effect.redisSetex (dedupKey tid) 604800 .processed]
    post
    (fun e => isPublishAttempt e || (e == Effect.ack))
    (fun e => e == Effect.redisSetex (dedupKey tid) 604800 .processed)
    (by
      intro e he
      simp only [List.mem_cons, List.not_mem_nil, or_false] at he
      rcases he with rfl | rfl <;> rfl)
    (Effect.redisSetex (dedupKey tid) 604800 .processed)
    (by simp) (by simp) i hi hfE
  exact ⟨j, hj, hlt, by simpa using hgj⟩

/-- C3: on every valid non-duplicate delivery (whatever the amount value
and the broker environment), the trace starts with the dedup read followed
immediately by the 7-day dedup-marker write, and every publish attempt and
every ack in the trace is at a strictly later position than a
dedup-marker write. -/
theorem C3_marker_before_publish (tid : String) (v : PyVal) (mdel : Option PyVal)
    (env : Env) (s0 : RState) (h0 : s0 (dedupKey tid) = none) :
    (∃ post, (callback ⟨true, some tid, some v, mdel⟩ env s0).2 =
      .redisGet (dedupKey tid) :: .redisSetex (dedupKey tid) 604800 .processed :: post) ∧
    (∀ (i : ℕ) (hi : i < ((callback ⟨true, some tid, some v, mdel⟩ env s0).2).length),
      (isPublishAttempt (((callback ⟨true, some tid, some v, mdel⟩ env s0).2).get
          ⟨i, hi⟩) = true ∨
        ((callback ⟨true, some tid, some v, mdel⟩ env s0).2).get ⟨i, hi⟩ = .ack) →
      ∃ (j : ℕ) (hj : j < ((callback ⟨true, some tid, some v, mdel⟩ env s0).2).length),
        j < i ∧
        ((callback ⟨true, some tid, some v, mdel⟩ env s0).2).get ⟨j, hj⟩ =
          .redisSetex (dedupKey tid) 604800 .processed) := by
  have key : ∃ post, (callback ⟨true, some tid, some v, mdel⟩ env s0).2 =
      .redisGet (dedupKey tid) :: .redisSetex (dedupKey tid) 604800 .processed :: post := by
    cases hpg : pyGt1000 v with
    | error u =>
      cases u
      rw [callback_main_err tid v mdel env s0 h0 hpg]
      exact ⟨_, rfl⟩
    | ok isF =>
      rw [callback_main tid v isF mdel env s0 h0 hpg]
      refine ⟨([.redisSetex (txnKey tid) 604800 (.txn tid v env.epochNow none none),
        .redisSetex (txnKey tid) 604800
          (.txn tid v env.epochNow (some isF) (some (statusOf isF))),
        .redisSetex (resultKey tid) 3600 (.result (mainPayload tid v isF env)),
        .counterInc "messages_processed"]
        ++ (if isF then [.counterInc "fraud_detections"] else []))
        ++ publishPhase env (mainPayload tid v isF env)
             (isDelayedOf ⟨true, some tid, some v, mdel⟩), ?_⟩
      simp [corePart, List.append_assoc]
  obtain ⟨post, hpost⟩ := key
  rw [hpost]
  exact ⟨⟨post, rfl⟩, marker_earlier post tid⟩

/-- C3 witness: the delayed message processed in a healthy environment
satisfies the marker-before-publish ordering. -/
theorem C3_marker_before_publish_witness :
    (emptyStore (dedupKey "t2") = none) ∧
    ((∃ post, (callback ⟨true, some "t2", some (.num 500), some (.bool true)⟩ envOK emptyStore).2 =
      .redisGet (dedupKey "t2") :: .redisSetex (dedupKey "t2") 604800 .processed :: post) ∧
    (∀ (i : ℕ)
      (hi : i < ((callback ⟨true, some "t2", some (.num 500), some (.bool true)⟩ envOK emptyStore).2).length),
      (isPublishAttempt (((callback ⟨true, some "t2", some (.num 500), some (.bool true)⟩ envOK emptyStore).2).get
          ⟨i, hi⟩) = true ∨
        ((callback ⟨true, some "t2", some (.num 500), some (.bool true)⟩ envOK emptyStore).2).get ⟨i, hi⟩ = .ack) →
      ∃ (j : ℕ)
        (hj : j < ((callback ⟨true, some "t2", some (.num 500), some (.bool true)⟩ envOK emptyStore).2).length),
        j < i ∧
        ((callback ⟨true, some "t2", some (.num 500), some (.bool true)⟩ envOK emptyStore).2).get ⟨j, hj⟩ =
          .redisSetex (dedupKey "t2") 604800 .processed)) :=
  ⟨rfl, C3_marker_before_publish "t2" (.num 500) (some (.bool true)) envOK emptyStore rfl⟩

lemma mainState_dedup (tid : String) (v : PyVal) (isF : Bool) (env : Env) (s0 : RState) :
    mainState tid v isF env s0 (dedupKey tid) = some .processed := by
  simp only [mainState, rset]
  rw [if_neg (resultKey_ne_dedupKey tid).symm, if_neg (txnKey_ne_dedupKey tid).symm,
    if_neg (txnKey_ne_dedupKey tid).symm]
  simp

lemma mainState_txn (tid : String) (v : PyVal) (isF : Bool) (env : Env) (s0 : RState) :
    mainState tid v isF env s0 (txnKey tid) =
      some (.txn tid v env.epochNow (some isF) (some (statusOf isF))) := by
  simp only [mainState, rset]
  rw [if_neg (resultKey_ne_txnKey tid).symm]
  simp

/-- C1: once a transfer id has been fully processed (its dedup marker and
audit record are in the store), a second delivery bearing the same
`transferId` — whatever its amount field, delay flag or broker
environment — leaves the store untouched and produces exactly the trace
"dedup read, duplicate_messages, duplicate_fraud_checks, ack": no store
write, no publish, no decision; hence the audit record stays the single
one written by the first delivery and the set of publish attempts of the
two deliveries together is exactly that of the first. -/
theorem C1_idempotent (tid : String) (a : ℚ) (mam2 : PyVal) (mdel mdel2 : Option PyVal)
    (env env2 : Env) (s0 : RState) (h0 : s0 (dedupKey tid) = none) :
    callback ⟨true, some tid, some mam2, mdel2⟩ env2
        (callback ⟨true, some tid, some (.num a), mdel⟩ env s0).1 =
      ((callback ⟨true, some tid, some (.num a), mdel⟩ env s0).1,
       [.redisGet (dedupKey tid), .counterInc "duplicate_messages",
        .counterInc "duplicate_fraud_checks", .ack]) ∧
    (callback ⟨true, some tid, some (.num a), mdel⟩ env s0).1 (dedupKey tid) =
      some .processed ∧
    (callback ⟨true, some tid, some (.num a), mdel⟩ env s0).1 (txnKey tid) =
      some (.txn tid (.num a) env.epochNow (some (decide (a > 1000)))
        (some (statusOf (decide (a > 1000))))) ∧
    publishAttempts ((callback ⟨true, some tid, some (.num a), mdel⟩ env s0).2 ++
        (callback ⟨true, some tid, some mam2, mdel2⟩ env2
          (callback ⟨true, some tid, some (.num a), mdel⟩ env s0).1).2) =
      publishAttempts ((callback ⟨true, some tid, some (.num a), mdel⟩ env s0).2) := by
  have hpair := callback_main tid (.num a) (decide (a > 1000)) mdel env s0 h0 rfl
  have hs1 : (callback ⟨true, some tid, some (.num a), mdel⟩ env s0).1 =
      mainState tid (.num a) (decide (a > 1000)) env s0 := by rw [hpair]
  have hdk : (callback ⟨true, some tid, some (.num a), mdel⟩ env s0).1 (dedupKey tid) =
      some .processed := by
    rw [hs1]
    exact mainState_dedup tid _ _ env s0
  have htk : (callback ⟨true, some tid, some (.num a), mdel⟩ env s0).1 (txnKey tid) =
      some (.txn tid (.num a) env.epochNow (some (decide (a > 1000)))
        (some (statusOf (decide (a > 1000))))) := by
    rw [hs1]
    exact mainState_txn tid _ _ env s0
  have hdup2 : ((callback ⟨true, some tid, some (.num a), mdel⟩ env s0).1
      (dedupKey tid)).isSome = true := by
    rw [hdk]
    rfl
  have h2 := callback_dup tid mam2 mdel2 env2 _ hdup2
  refine ⟨h2, hdk, htk, ?_⟩
  have htr2 : (callback ⟨true, some tid, some mam2, mdel2⟩ env2
      (callback ⟨true, some tid, some (.num a), mdel⟩ env s0).1).2 =
      [.redisGet (dedupKey tid), .counterInc "duplicate_messages",
       .counterInc "duplicate_fraud_checks", .ack] := by rw [h2]
  rw [htr2]
  simp [publishAttempts, List.filter_append, isPublishAttempt]

/-- C1 witness: concrete double delivery of transfer "t1" (amount 500) in
the healthy environment. -/
theorem C1_idempotent_witness :
    (emptyStore (dedupKey "t1") = none) ∧
    (callback ⟨true, some "t1", some (.num 500), some (.bool false)⟩ envOK
        (callback ⟨true, some "t1", some (.num 500), some (.bool false)⟩ envOK emptyStore).1 =
      ((callback ⟨true, some "t1", some (.num 500), some (.bool false)⟩ envOK emptyStore).1,
       [.redisGet (dedupKey "t1"), .counterInc "duplicate_messages",
        .counterInc "duplicate_fraud_checks", .ack]) ∧
    (callback ⟨true, some "t1", some (.num 500), some (.bool false)⟩ envOK emptyStore).1 (dedupKey "t1") =
      some .processed ∧
    (callback ⟨true, some "t1", some (.num 500), some (.bool false)⟩ envOK emptyStore).1 (txnKey "t1") =
      some (.txn "t1" (.num 500) envOK.epochNow (some (decide ((500 : ℚ) > 1000)))
        (some (statusOf (decide ((500 : ℚ) > 1000))))) ∧
    publishAttempts ((callback ⟨true, some "t1", some (.num 500), some (.bool false)⟩ envOK emptyStore).2 ++
        (callback ⟨true, some "t1", some (.num 500), some (.bool false)⟩ envOK
          (callback ⟨true, some "t1", some (.num 500), some (.bool false)⟩ envOK emptyStore).1).2) =
      publishAttempts ((callback ⟨true, some "t1", some (.num 500), some (.bool false)⟩ envOK emptyStore).2)) :=
  ⟨rfl, C1_idempotent "t1" 500 (.num 500) (some (.bool false)) (some (.bool false))
    envOK envOK emptyStore rfl⟩

/-- C5 (amended): a body that fails JSON parsing or lacks `transferId` or
`amount` is rejected without requeue with the error counter incremented,
no store writes and no publishes; a non-numeric `amount`, however, is
only detected at the `amount > 1000` comparison, so the message is still
rejected without requeue with the error counter incremented and no
publishes, but the dedup marker and the initial audit record have already
been written. -/
theorem C5_malformed_amended :
    (∀ (msg : InMsg) (env : Env) (s0 : RState), msg.valid = false →
      callback msg env s0 = (s0, [.counterInc "processing_errors", .nack])) ∧
    (∀ (msg : InMsg) (env : Env) (s0 : RState), msg.valid = true →
      msg.transferId = none →
      callback msg env s0 = (s0, [.counterInc "processing_errors", .nack])) ∧
    (∀ (msg : InMsg) (env : Env) (s0 : RState) (tid : String), msg.valid = true →
      msg.transferId = some tid → msg.amount = none →
      callback msg env s0 = (s0, [.counterInc "processing_errors", .nack])) ∧
    (∀ (tid : String) (v : PyVal) (mdel : Option PyVal) (env : Env) (s0 : RState),
      pyGt1000 v = .error () → s0 (dedupKey tid) = none →
      callback ⟨true, some tid, some v, mdel⟩ env s0 =
        (rset (rset s0 (dedupKey tid) .processed) (txnKey tid)
           (.txn tid v env.epochNow none none),
         [.redisGet (dedupKey tid), .redisSetex (dedupKey tid) 604800 .processed,
          .redisSetex (txnKey tid) 604800 (.txn tid v env.epochNow none none),
          .counterInc "processing_errors", .nack])) := by
  refine ⟨?_, ?_, ?_, ?_⟩
  · intro msg env s0 h
    obtain ⟨mv, mtid, mam, mdl⟩ := msg
    subst h
    rfl
  · intro msg env s0 h1 h2
    obtain ⟨mv, mtid, mam, mdl⟩ := msg
    subst h1
    subst h2
    rfl
  · intro msg env s0 tid h1 h2 h3
    obtain ⟨mv, mtid, mam, mdl⟩ := msg
    subst h1
    subst h2
    subst h3
    rfl
  · intro tid v mdel env s0 herr h0
    exact callback_main_err tid v mdel env s0 h0 herr

/-- C5 amended witness: the invalid-JSON delivery and the string-amount
delivery, both on the empty store. -/
theorem C5_malformed_amended_witness :
    (msgNoJson.valid = false ∧ pyGt1000 (.str "abc") = .error () ∧
      emptyStore (dedupKey "t3") = none) ∧
    callback msgNoJson envOK emptyStore =
      (emptyStore, [.counterInc "processing_errors", .nack]) ∧
    callback ⟨true, some "t3", some (.str "abc"), none⟩ envOK emptyStore =
      (rset (rset emptyStore (dedupKey "t3") .processed) (txnKey "t3")
         (.txn "t3" (.str "abc") envOK.epochNow none none),
       [.redisGet (dedupKey "t3"), .redisSetex (dedupKey "t3") 604800 .processed,
        .redisSetex (txnKey "t3") 604800 (.txn "t3" (.str "abc") envOK.epochNow none none),
        .counterInc "processing_errors", .nack]) :=
  ⟨⟨rfl, rfl, rfl⟩,
   C5_malformed_amended.1 msgNoJson envOK emptyStore rfl,
   C5_malformed_amended.2.2.2 "t3" (.str "abc") none envOK emptyStore rfl rfl⟩

/-! ## C8: declare-before-publish -/

/-- An environment whose first `get_channel` reconnects but the very first
initial declaration (`FraudResult`) raises: the channel is recreated with
NO queue declared. -/
def envBadDecl : Env :=
  ⟨fun n => if n = 0 then ⟨true, false, some (0 : Fin 3)⟩ else gcConnected,
   fun _ => false, fun _ => false, 0, t0⟩

/-- C8 counterexample: on the declaration-failure/recreate path of
`get_channel`, the message is still processed and published, and the
`FraudEvents` queue receives a publish although no `FraudEvents`
declaration ever happened — the claim's "declared before any publish on
every path, including the recreate path" is false. -/
theorem C8_counterexample :
    ((callback msgImm envBadDecl emptyStore).2.countP fun e =>
      match e with
      | .publishAttempt q _ _ => q == "FraudEvents"
      | _ => false) = 1 ∧
    Effect.declareOk "FraudEvents" ∉ (callback msgImm envBadDecl emptyStore).2 := by
  refine ⟨by decide, by decide⟩

lemma callback_pub_queue (msg : InMsg) (env : Env) (s0 : RState) (q : String)
    (p : Payload) (b : Bool)
    (h : Effect.publishAttempt q p b ∈ (callback msg env s0).2) :
    outQueues.contains q = true := by
  obtain ⟨mv, mtid, mam, mdl⟩ := msg
  cases mv
  · simp [callback] at h
  · cases mtid with
    | none => simp [callback] at h
    | some tid =>
      cases mam with
      | none => simp [callback] at h
      | some v =>
        by_cases hdup : (s0 (dedupKey tid)).isSome = true
        · rw [callback_dup tid v mdl env s0 hdup] at h
          simp at h
        · have hnd : s0 (dedupKey tid) = none := by
            cases hs : s0 (dedupKey tid)
            · rfl
            · rw [hs] at hdup
              simp at hdup
          cases hpg : pyGt1000 v with
          | error u =>
            cases u
            rw [callback_main_err tid v mdl env s0 hnd hpg] at h
            simp at h
          | ok isF =>
            rw [callback_main tid v isF mdl env s0 hnd hpg] at h
            rcases List.mem_append.mp h with h | h
            · exact absurd ((corePart_no_broker _ _ _ _ _ h).2.1)
                (by simp [isPublishAttempt])
            · have := publishPhase_shape _ _ _ _ h
              simpa [ppShape] using this

lemma declare_earlier (P Q : List Effect) (q : String)
    (hP : ∀ e ∈ P, isPublishAttempt e = false)
    (hd : Effect.declareOk q ∈ P) :
    ∀ (i : ℕ) (hi : i < (P ++ Q).length) (p : Payload) (b : Bool),
      (P ++ Q).get ⟨i, hi⟩ = .publishAttempt q p b →
      ∃ (j : ℕ) (hj : j < (P ++ Q).length), j < i ∧
        (P ++ Q).get ⟨j, hj⟩ = .declareOk q := by
  intro i hi p b he
  obtain ⟨j, hj, hlt, hgj⟩ := exists_earlier P Q isPublishAttempt
    (fun e => e == Effect.declareOk q) hP (Effect.declareOk q) (by simp) hd i hi
    (by rw [he]; rfl)
  exact ⟨j, hj, hlt, by simpa using hgj⟩

lemma no_pub_list_imp (l : List Effect) (h : ∀ e ∈ l, isPublishAttempt e = false) :
    ∀ (q : String) (i : ℕ) (hi : i < l.length) (p : Payload) (b : Bool),
      l.get ⟨i, hi⟩ = .publishAttempt q p b →
      ∃ (j : ℕ) (hj : j < l.length), j < i ∧ l.get ⟨j, hj⟩ = .declareOk q := by
  intro q i hi p b he
  have hall := h _ (List.get_mem l i hi)
  rw [he] at hall
  exact absurd hall (by simp [isPublishAttempt])

/-- C8 (amended): when the first channel acquisition of a message's
processing reconnects and all three initial durable declarations succeed,
every publish attempt in the trace is preceded, strictly earlier, by a
durable declaration of its target queue — for every message shape and
every behaviour of the later re-acquisitions and publishes. -/
theorem C8_declare_before_publish_amended (msg : InMsg) (env : Env) (s0 : RState)
    (hgc : env.gc 0 = gcFresh) :
    ∀ (q : String) (i : ℕ) (hi : i < ((callback msg env s0).2).length)
      (p : Payload) (b : Bool),
      ((callback msg env s0).2).get ⟨i, hi⟩ = .publishAttempt q p b →
      ∃ (j : ℕ) (hj : j < ((callback msg env s0).2).length), j < i ∧
        ((callback msg env s0).2).get ⟨j, hj⟩ = .declareOk q := by
  obtain ⟨mv, mtid, mam, mdl⟩ := msg
  cases mv
  · exact no_pub_list_imp _ (by
      intro e he
      simp only [callback, List.mem_cons, List.not_mem_nil, or_false] at he
      rcases he with rfl | rfl <;> rfl)
  cases mtid with
  | none =>
    exact no_pub_list_imp _ (by
      intro e he
      simp only [callback, List.mem_cons, List.not_mem_nil, or_false] at he
      rcases he with rfl | rfl <;> rfl)
  | some tid =>
    cases mam with
    | none =>
      exact no_pub_list_imp _ (by
        intro e he
        simp only [callback, List.mem_cons, List.not_mem_nil, or_false] at he
        rcases he with rfl | rfl <;> rfl)
    | some v =>
      by_cases hdup : (s0 (dedupKey tid)).isSome = true
      · rw [callback_dup tid v mdl env s0 hdup]
        exact no_pub_list_imp _ (by
          intro e he
          simp only [List.mem_cons, List.not_mem_nil, or_false] at he
          rcases he with rfl | rfl | rfl | rfl <;> rfl)
      · have hnd : s0 (dedupKey tid) = none := by
          cases hs : s0 (dedupKey tid)
          · rfl
          · rw [hs] at hdup
            simp at hdup
        cases hpg : pyGt1000 v with
        | error u =>
          cases u
          rw [callback_main_err tid v mdl env s0 hnd hpg]
          exact no_pub_list_imp _ (by
            intro e he
            simp only [List.mem_cons, List.not_mem_nil, or_false] at he
            rcases he with rfl | rfl | rfl | rfl | rfl <;> rfl)
        | ok isF =>
          rw [callback_main tid v isF mdl env s0 hnd hpg,
            publishPhase_ok_eq env _ _ (by rw [hgc]; rfl), hgc]
          have hgcl : (get_channel gcFresh).1 =
              [Effect.connectOk, .declareOk "FraudResult", .declareOk "FraudEvents",
               .declareOk "FraudCheckResults"] := rfl
          rw [hgcl]
          have hassoc : ∀ (A B C D E F : List Effect),
              A ++ ((((B ++ C) ++ D) ++ E) ++ F) = (A ++ B) ++ (C ++ (D ++ (E ++ F))) := by
            intro A B C D E F
            simp [List.append_assoc]
          rw [hassoc]
          intro q i hi p b he
          have hmem := List.get_mem _ i hi
          rw [he] at hmem
          have hP : ∀ e ∈ corePart tid v isF env ++
              [Effect.connectOk, .declareOk "FraudResult", .declareOk "FraudEvents",
               .declareOk "FraudCheckResults"], isPublishAttempt e = false := by
            intro e he2
            rcases List.mem_append.mp he2 with h | h
            · exact (corePart_no_broker _ _ _ _ _ h).2.1
            · simp only [List.mem_cons, List.not_mem_nil, or_false] at h
              rcases h with rfl | rfl | rfl | rfl <;> rfl
          have hq : q = "FraudResult" ∨ q = "FraudEvents" ∨ q = "FraudCheckResults" := by
            rcases List.mem_append.mp hmem with h | h
            · exact absurd (hP _ h) (by simp [isPublishAttempt])
            · rcases List.mem_append.mp h with h | h
              · simp only [List.mem_singleton] at h
                injection h with hq1 hp1 hb1
                exact Or.inr (Or.inl hq1)
              · rcases List.mem_append.mp h with h | h
                · rcases resultBlock_mem _ _ _ _ _ _ h with h | h | h
                  · have := gc_shape _ _ h
                    simp [gcShape] at this
                  · simp at h
                  · injection h with hq1 hp1 hb1
                    exact Or.inl hq1
                · rcases List.mem_append.mp h with h | h
                  · split at h
                    · rcases resultBlock_mem _ _ _ _ _ _ h with h | h | h
                      · have := gc_shape _ _ h
                        simp [gcShape] at this
                      · simp at h
                      · injection h with hq1 hp1 hb1
                        exact Or.inr (Or.inr hq1)
                    · rcases resultBlock_mem _ _ _ _ _ _ h with h | h | h
                      · have := gc_shape _ _ h
                        simp [gcShape] at this
                      · simp at h
                      · injection h with hq1 hp1 hb1
                        exact Or.inl hq1
                  · simp only [List.mem_singleton] at h
                    simp at h
          rcases hq with rfl | rfl | rfl
          · exact declare_earlier _ _ "FraudResult" hP (by simp) i hi p b he
          · exact declare_earlier _ _ "FraudEvents" hP (by simp) i hi p b he
          · exact declare_earlier _ _ "FraudCheckResults" hP (by simp) i hi p b he

/-- C8 amended witness: the delayed message in the healthy environment,
whose first channel acquisition declares all three queues. -/
theorem C8_declare_before_publish_amended_witness :
    (envOK.gc 0 = gcFresh) ∧
    (∀ (q : String) (i : ℕ)
      (hi : i < ((callback msgDel envOK emptyStore).2).length)
      (p : Payload) (b : Bool),
      ((callback msgDel envOK emptyStore).2).get ⟨i, hi⟩ = .publishAttempt q p b →
      ∃ (j : ℕ) (hj : j < ((callback msgDel envOK emptyStore).2).length), j < i ∧
        ((callback msgDel envOK emptyStore).2).get ⟨j, hj⟩ = .declareOk q) :=
  ⟨rfl, C8_declare_before_publish_amended msgDel envOK emptyStore rfl⟩

/-! ## C7: the connection retry schedule -/

lemma delaySeq_shift (md d : ℚ) (n : ℕ) :
    delaySeq md (min (d * 2) md) n = delaySeq md d (n + 1) := by
  induction n generalizing d with
  | zero => rfl
  | succ n ih =>
    show min (delaySeq md (min (d * 2) md) n * 2) md = min (delaySeq md d (n + 1) * 2) md
    rw [ih]

lemma connectLoop_allFail (attempt : ℕ → Option String) (jitter : ℕ → ℚ) (md : ℚ)
    (errs : ℕ → String) (hfail : ∀ n, attempt n = some (errs n)) :
    ∀ (F k : ℕ) (d : ℚ),
      connectLoopAux attempt jitter md (F + 1) k d =
        ((List.range F).map fun i => min (delaySeq md d i + jitter (k + i)) md,
         .raised (errs (k + F))) := by
  intro F
  induction F with
  | zero =>
    intro k d
    simp [connectLoopAux, hfail k]
  | succ F ih =>
    intro k d
    have h1 : connectLoopAux attempt jitter md (F + 1 + 1) k d =
        (min (d + jitter k) md ::
          (connectLoopAux attempt jitter md (F + 1) (k + 1) (min (d * 2) md)).1,
         (connectLoopAux attempt jitter md (F + 1) (k + 1) (min (d * 2) md)).2) := by
      simp [connectLoopAux, hfail k]
    rw [h1, ih (k + 1) (min (d * 2) md)]
    simp only [List.range_succ_eq_map, List.map_cons, List.map_map, Prod.mk.injEq]
    refine ⟨?_, ?_⟩
    · have hhead : (delaySeq md d 0 + jitter (k + 0)) ⊓ md = (d + jitter k) ⊓ md := by
        simp [delaySeq]
      rw [hhead]
      congr 1
      apply List.map_congr_left
      intro a ha
      simp only [Function.comp_apply]
      rw [delaySeq_shift, show k + 1 + a = k + (a + 1) from by omega]
    · rw [show k + 1 + F = k + (F + 1) from by omega]

lemma delaySeq_one_le (n : ℕ) : 1 ≤ delaySeq 30 1 n := by
  induction n with
  | zero => norm_num [delaySeq]
  | succ n ih =>
    show (1 : ℚ) ≤ min (delaySeq 30 1 n * 2) 30
    exact le_min (by linarith) (by norm_num)

lemma sleep_mono (d j j2 : ℚ) (hd : 1 ≤ d) (hj : j ≤ d / 2)
    (hj20 : 0 ≤ j2) (hlt : min (d + j) 30 < 30) :
    min (d + j) 30 < min (min (d * 2) 30 + j2) 30 := by
  have hdj : d + j < 30 := by
    by_contra hc
    push_neg at hc
    rw [min_eq_right hc] at hlt
    exact lt_irrefl _ hlt
  rw [min_eq_left (le_of_lt hdj)]
  rcases le_or_lt (d * 2) 30 with h2 | h2
  · rw [min_eq_left h2]
    rcases le_or_lt (d * 2 + j2) 30 with h3 | h3
    · rw [min_eq_left h3]
      linarith
    · rw [min_eq_right (le_of_lt h3)]
      exact hdj
  · rw [min_eq_right (le_of_lt h2)]
    rw [min_eq_right (by linarith : (30 : ℚ) ≤ 30 + j2)]
    exact hdj

/-- C7: with the source defaults `initial_delay = 1`, `max_delay = 30` and
`max_retries = F + 1`, a run in which every attempt fails makes exactly
`max_retries` attempts (attempt indices `0 .. F`, `F` sleeps between
them), re-raises the error of the last attempt, the base delay doubles
after each attempt capping at `max_delay`, and — for every jitter choice
in `[0, delay/2]` — consecutive sleep durations strictly increase as long
as the earlier one is below the `max_delay` cap. -/
theorem C7_retry_schedule (attempt : ℕ → Option String) (jitter : ℕ → ℚ)
    (errs : ℕ → String) (F : ℕ)
    (hfail : ∀ n, attempt n = some (errs n))
    (hj : ∀ n, 0 ≤ jitter n ∧ jitter n ≤ delaySeq 30 1 n / 2) :
    (get_rabbitmq_connection attempt jitter (F + 1) 1 30).2 = .raised (errs F) ∧
    (get_rabbitmq_connection attempt jitter (F + 1) 1 30).1 =
      (List.range F).map (fun i => min (delaySeq 30 1 i + jitter i) 30) ∧
    (∀ n, delaySeq 30 1 (n + 1) = min (delaySeq 30 1 n * 2) 30) ∧
    (∀ i, min (delaySeq 30 1 i + jitter i) 30 < 30 →
      min (delaySeq 30 1 i + jitter i) 30 <
        min (delaySeq 30 1 (i + 1) + jitter (i + 1)) 30) := by
  have hspec := connectLoop_allFail attempt jitter 30 errs hfail F 0 1
  refine ⟨?_, ?_, fun n => rfl, ?_⟩
  · unfold get_rabbitmq_connection
    rw [hspec]
    simp
  · unfold get_rabbitmq_connection
    rw [hspec]
    simp
  · intro i hlt
    have h1 := delaySeq_one_le i
    have hj1 := hj i
    have hj2 := hj (i + 1)
    exact sleep_mono (delaySeq 30 1 i) (jitter i) (jitter (i + 1)) h1 hj1.2
      hj2.1 hlt

/-- C7 witness: 30 attempts all failing with error "boom" and zero
jitter. -/
theorem C7_retry_schedule_witness :
    ((∀ n : ℕ, (fun _ : ℕ => (some "boom" : Option String)) n =
        some ((fun _ : ℕ => "boom") n)) ∧
     (∀ n : ℕ, 0 ≤ (fun _ : ℕ => (0 : ℚ)) n ∧
        (fun _ : ℕ => (0 : ℚ)) n ≤ delaySeq 30 1 n / 2)) ∧
    ((get_rabbitmq_connection (fun _ => some "boom") (fun _ => 0) (29 + 1) 1 30).2 =
        .raised "boom" ∧
     (get_rabbitmq_connection (fun _ => some "boom") (fun _ => 0) (29 + 1) 1 30).1 =
        (List.range 29).map (fun i => min (delaySeq 30 1 i + (fun _ : ℕ => (0 : ℚ)) i) 30) ∧
     (∀ n, delaySeq 30 1 (n + 1) = min (delaySeq 30 1 n * 2) 30) ∧
     (∀ i, min (delaySeq 30 1 i + (fun _ : ℕ => (0 : ℚ)) i) 30 < 30 →
        min (delaySeq 30 1 i + (fun _ : ℕ => (0 : ℚ)) i) 30 <
          min (delaySeq 30 1 (i + 1) + (fun _ : ℕ => (0 : ℚ)) (i + 1)) 30)) :=
  ⟨⟨fun _ => rfl,
    fun n => ⟨le_refl 0, by
      have := delaySeq_one_le n
      linarith⟩⟩,
   C7_retry_schedule (fun _ => some "boom") (fun _ => 0) (fun _ => "boom") 29
     (fun _ => rfl)
     (fun n => ⟨le_refl 0, by
       have := delaySeq_one_le n
       linarith⟩)⟩

end FraudDetection
